import Mathlib

/- Verification of the path-confinement and traversal engine of a Markdown
note server (src/index.ts), shallowly embedded in Lean 4.

Modelling conventions:
* POSIX path rules throughout: the separator is "/" (Node `path.sep`).
* Node `path` library functions are modelled for the slash-clean inputs the
  program feeds them (absolute, already-normalized paths without trailing
  separators, except the root "/").
* The filesystem is an explicit record of partial functions (`FSModel`); a
  `none` result models a thrown I/O error (for instance ENOENT).
* A JavaScript `try { .. } catch { .. }` block is modelled by matching on the
  `Except` value produced by the try body: `.error` means the body threw, and
  the catch branch is the `.error` arm of the outer match.
* JavaScript string primitives (`split`, `startsWith`, `endsWith`,
  `toLowerCase`, `includes`, `slice`, first-occurrence `replace`) are modelled
  by structurally recursive functions over `String.data`, so that every
  definition evaluates inside the kernel; paths in the claims are ASCII, where
  these agree with the JS code-unit semantics. -/

/- ===== JS string primitive models ===== -/

def strStartsWith (s pre : String) : Bool :=
  pre.data.isPrefixOf s.data

def strEndsWith (s suf : String) : Bool :=
  suf.data.isSuffixOf s.data

def asciiLower (c : Char) : Char :=
  if 'A' ≤ c && c ≤ 'Z' then Char.ofNat (c.toNat + 32) else c

def strToLower (s : String) : String :=
  String.mk (s.data.map asciiLower)

def strDrop (s : String) (n : Nat) : String :=
  String.mk (s.data.drop n)

def splitCharsOn (sep : Char) : List Char → List (List Char)
  | [] => [[]]
  | c :: cs =>
    let rest := splitCharsOn sep cs
    if c = sep then [] :: rest
    else
      match rest with
      | [] => [[c]]
      | g :: gs => (c :: g) :: gs

/- JS `s.split("/")` (single-character separator). -/
def strSplitSlash (s : String) : List String :=
  (splitCharsOn '/' s.data).map String.mk

def strIntercalate (sep : String) (ss : List String) : String :=
  String.mk (List.intercalate sep.data (ss.map String.data))

/- JS `s.includes(pat)` — contiguous-substring containment. -/
def listIncludes (pat : List Char) : List Char → Bool
  | [] => pat.isEmpty
  | c :: cs => pat.isPrefixOf (c :: cs) || listIncludes pat cs

def strIncludes (s pat : String) : Bool :=
  listIncludes pat.data s.data

/- JS `s.replace(pat, repl)` with a string pattern: replace the first
occurrence only; return `s` unchanged when `pat` does not occur.  (For the
empty `s` with a nonempty `pat`, and for every use in the program, `pat` is a
nonempty path, where this agrees with JS.) -/
def replaceFirstChars (pat repl : List Char) : List Char → List Char
  | [] => []
  | c :: cs =>
    if pat.isPrefixOf (c :: cs) then repl ++ (c :: cs).drop pat.length
    else c :: replaceFirstChars pat repl cs

def strReplaceFirst (s pat repl : String) : String :=
  String.mk (replaceFirstChars pat.data repl.data s.data)

/- ===== Node path library model (POSIX) ===== -/

/- Segment resolution used by `path.normalize`: drops empty and "." segments
and resolves ".." against the accumulated stack (".." above the root of an
absolute path is discarded; for a relative path it is kept). -/
def normSegs (isAbs : Bool) : List String → List String → List String
  | acc, [] => acc.reverse
  | acc, seg :: rest =>
    if seg = "" || seg = "." then normSegs isAbs acc rest
    else if seg = ".." then
      match acc with
      | [] => if isAbs then normSegs isAbs [] rest else normSegs isAbs [".."] rest
      | top :: acc2 =>
        if top = ".." then normSegs isAbs (".." :: top :: acc2) rest
        else normSegs isAbs acc2 rest
    else normSegs isAbs (seg :: acc) rest

/- Model of Node `path.normalize` (POSIX) on slash-clean input: collapses
separator runs and resolves "." and ".." structurally.  (Node preserves a
trailing separator; the program only ever normalizes outputs of
`path.resolve`/`path.join`, which carry none, so the model drops it.) -/
def normalizeStr (p : String) : String :=
  let isAbs := strStartsWith p "/"
  let body := strIntercalate "/" (normSegs isAbs [] (strSplitSlash p))
  if isAbs then "/" ++ body
  else if body = "" then "." else body

/- Model of Node `path.join(a, b)` for nonempty `a`: concatenate with a
separator, then normalize. -/
def joinPath (a b : String) : String :=
  normalizeStr (a ++ "/" ++ b)

/- Model of Node `path.dirname` (POSIX) on normalized input: everything before
the final separator; "/" for a single root-level segment; "." when there is no
separator at all. -/
def dirname (p : String) : String :=
  let parts := strSplitSlash p
  if parts.length ≤ 1 then "."
  else
    let front := parts.dropLast
    if front.all (fun s => s = "") then "/"
    else strIntercalate "/" front

/- Model of Node `path.resolve(cwd, p)` (also of one-argument `path.resolve`,
which resolves against the process working directory): an absolute path is
normalized as is, a relative one is joined onto `cwd` first. -/
def resolveFrom (cwd p : String) : String :=
  if strStartsWith p "/" then normalizeStr p
  else normalizeStr (cwd ++ "/" ++ p)

/- ===== Embedding of src/index.ts ===== -/

/- Lines 51-53: `normalizePath` — platform normalization followed by
case-folding; used by the program for prefix comparison. -/
def normalizePath (p : String) : String :=
  strToLower (normalizeStr p)

/- Lines 55-60: `expandHome` — expand a leading "~" to the home directory via
`path.join(os.homedir(), filepath.slice(1))`. -/
def expandHome (homedir filepath : String) : String :=
  if strStartsWith filepath "~/" || filepath = "~" then
    joinPath homedir (strDrop filepath 1)
  else filepath

/- A directory entry as returned by `fs.readdir(..., { withFileTypes: true })`:
a name plus whether `entry.isDirectory()` holds. -/
structure DirEntry where
  name : String
  isDir : Bool
deriving DecidableEq, Repr

/- The filesystem, as the partial functions the program calls.  `none` models
the call throwing (for instance ENOENT); `fs.realpath` follows symlinks. -/
structure FSModel where
  realpath : String → Option String
  readdir : String → Option (List DirEntry)
  readFile : String → Option String

/- Process-wide configuration: line 63's `vaultDirectories` (already
normalized), plus the ambient `process.cwd()` and `os.homedir()`. -/
structure Config where
  vaultDirectories : List String
  cwd : String
  homedir : String

/- Line 63: `[normalizePath(path.resolve(expandHome(config.vaultPath)))]`. -/
def mkVaultDirectories (homedir cwd vaultPath : String) : List String :=
  [normalizePath (resolveFrom cwd (expandHome homedir vaultPath))]

/- Lines 80-83: the hidden-entry filter — split the raw requested path on
`path.sep` and look for a segment starting with ".". -/
def hiddenDenied (requestedPath : String) : Bool :=
  (strSplitSlash requestedPath).any (fun part => strStartsWith part ".")

/- Lines 93-95 / 108-110 / 123-125: the shared prefix test — some configured
root is a plain-string prefix (`startsWith`) of the normalized path. -/
def prefixAllowed (cfg : Config) (normalized : String) : Bool :=
  cfg.vaultDirectories.any (fun dir => strStartsWith normalized dir)

/- Lines 85-88: absolutization of the candidate after home expansion. -/
def absoluteOf (cfg : Config) (requestedPath : String) : String :=
  let expandedPath := expandHome cfg.homedir requestedPath
  if strStartsWith expandedPath "/" then normalizeStr expandedPath
  else resolveFrom cfg.cwd expandedPath

/- Error strings thrown by `validatePath` (lines 82, 97-101, 112-114, 127-129,
133). -/
def hiddenMsg : String := "Access denied - hidden files/directories not allowed"

def outsideMsg (absolute : String) (dirs : List String) : String :=
  "Access denied - path outside allowed directories: " ++ absolute
    ++ " not in " ++ strIntercalate ", " dirs

def symlinkMsg : String := "Access denied - symlink target outside allowed directories"

def parentOutsideMsg : String := "Access denied - parent directory outside allowed directories"

def parentMissingMsg (parentDir : String) : String :=
  "Parent directory does not exist: " ++ parentDir

/- Lines 104-135: the resolution stage of `validatePath`.  The outer match is
the `try { realpath; symlink check } catch { parent fallback }` block: any
throw inside the try body — including the line-112 symlink-escape throw —
lands in the catch arm.  The inner match is the nested
`try { realpath(parent); parent check } catch { ParentMissing }` block: any
throw there — including the line-127 parent-outside throw — is replaced by the
line-133 "Parent directory does not exist" error. -/
def validateResolve (cfg : Config) (fs : FSModel) (absolute : String) : Except String String :=
  match (match fs.realpath absolute with
         | none => Except.error "realpath ENOENT"
         | some realPath =>
           if prefixAllowed cfg (normalizePath realPath) then Except.ok realPath
           else Except.error symlinkMsg) with
  | .ok r => .ok r
  | .error _ =>
    match (match fs.realpath (dirname absolute) with
           | none => Except.error "realpath ENOENT"
           | some realParentPath =>
             if prefixAllowed cfg (normalizePath realParentPath) then Except.ok absolute
             else Except.error parentOutsideMsg) with
    | .ok r => .ok r
    | .error _ => .error (parentMissingMsg (dirname absolute))

/- Lines 78-136: `validatePath`. -/
def validatePath (cfg : Config) (fs : FSModel) (requestedPath : String) : Except String String :=
  if hiddenDenied requestedPath then .error hiddenMsg
  else if prefixAllowed cfg (normalizePath (absoluteOf cfg requestedPath)) then
    validateResolve cfg fs (absoluteOf cfg requestedPath)
  else .error (outsideMsg (absoluteOf cfg requestedPath) cfg.vaultDirectories)

/- ===== Recursive search engine (lines 152-191, 312-336) ===== -/

/- Line 17. -/
def SEARCH_LIMIT : Nat := 200

/- Lines 165-172: the per-entry match test.  `rx query name` abstracts the
outcome of `new RegExp(query.replace(/[*]/g, ".*"), "i").test(name)` with the
surrounding invalid-regex catch already absorbed: it is `false` when the
rewritten query does not compile, otherwise the regex-test result.  The `||`
short-circuits exactly as in the source. -/
def entryMatches (rx : String → String → Bool) (query name : String) : Bool :=
  strIncludes (strToLower name) (strToLower query) || rx query name

/- Lines 158-186: the body of the `for (const entry of entries)` loop.  `rec`
is the recursive descent (`search(basePath, fullPath)`), returning `.error`
when that call threw.  The whole body sits in a `try { .. } catch { continue }`
block: a validation failure, or a throw out of the recursive call, leaves the
accumulator as it stands and moves to the next entry.  (A recursive call that
throws has pushed nothing: the only throw it can produce is its own initial
`fs.readdir` failing, before any push.) -/
def searchStep (cfg : Config) (fs : FSModel) (rx : String → String → Bool)
    (query : String) (rec : String → Except Unit (List String))
    (basePath currentPath : String) (acc : List String) (entry : DirEntry) :
    List String :=
  let fullPath := joinPath currentPath entry.name
  match validatePath cfg fs fullPath with
  | .error _ => acc
  | .ok _ =>
    let acc2 :=
      if strEndsWith entry.name ".md" && entryMatches rx query entry.name then
        acc ++ [strReplaceFirst fullPath basePath ""]
      else acc
    if entry.isDir then
      match rec fullPath with
      | .ok rs => acc2 ++ rs
      | .error _ => acc2
    else acc2

/- Lines 155-187: `search(basePath, currentPath)`.  `.error ()` models the
call rejecting, which happens exactly when its own `fs.readdir` throws (or,
in the model, when the fuel for the unbounded JS recursion runs out). -/
def searchGo (cfg : Config) (fs : FSModel) (rx : String → String → Bool)
    (query : String) : Nat → String → String → Except Unit (List String)
  | 0, _, _ => .error ()
  | fuel + 1, basePath, currentPath =>
    match fs.readdir currentPath with
    | none => .error ()
    | some entries =>
      .ok (entries.foldl
        (searchStep cfg fs rx query
          (fun fp => searchGo cfg fs rx query fuel basePath fp) basePath currentPath)
        [])

/- Lines 152-191: `searchNotes` — run `search(dir, dir)` for every configured
root; if any rejects, the whole call rejects (`Promise.all`). -/
def searchNotesRun (cfg : Config) (fs : FSModel) (rx : String → String → Bool)
    (fuel : Nat) (query : String) : Except Unit (List String) :=
  cfg.vaultDirectories.foldl
    (fun acc dir =>
      match acc with
      | .error e => .error e
      | .ok rs =>
        match searchGo cfg fs rx query fuel dir dir with
        | .error e => .error e
        | .ok rs2 => .ok (rs ++ rs2))
    (.ok [])

/- Lines 312-336: the `search_notes` handler — truncate to `SEARCH_LIMIT`
matches and report how many results were omitted (only when the total exceeds
the limit). -/
def searchTool (cfg : Config) (fs : FSModel) (rx : String → String → Bool)
    (fuel : Nat) (query : String) : Except Unit (List String × Option Nat) :=
  match searchNotesRun cfg fs rx fuel query with
  | .error e => .error e
  | .ok results =>
    .ok (results.take SEARCH_LIMIT,
      if results.length > SEARCH_LIMIT then some (results.length - SEARCH_LIMIT)
      else none)

/- ===== Reference accumulation for the search claims ===== -/

/-- Modelled from the spec: the "accumulated `.md` results" of a search whose
query matches every filename — the same traversal with the query filter
dropped, keeping every validated entry whose name ends in `.md`. -/
def collectStep (cfg : Config) (fs : FSModel)
    (rec : String → Except Unit (List String))
    (basePath currentPath : String) (acc : List String) (entry : DirEntry) :
    List String :=
  let fullPath := joinPath currentPath entry.name
  match validatePath cfg fs fullPath with
  | .error _ => acc
  | .ok _ =>
    let acc2 :=
      if strEndsWith entry.name ".md" then acc ++ [strReplaceFirst fullPath basePath ""]
      else acc
    if entry.isDir then
      match rec fullPath with
      | .ok rs => acc2 ++ rs
      | .error _ => acc2
    else acc2

/-- Modelled from the spec: traversal collecting every validated `.md` entry. -/
def collectGo (cfg : Config) (fs : FSModel) :
    Nat → String → String → Except Unit (List String)
  | 0, _, _ => .error ()
  | fuel + 1, basePath, currentPath =>
    match fs.readdir currentPath with
    | none => .error ()
    | some entries =>
      .ok (entries.foldl
        (collectStep cfg fs (fun fp => collectGo cfg fs fuel basePath fp)
          basePath currentPath)
        [])

/-- Modelled from the spec: all `.md` files under the roots, in traversal
order. -/
def collectRun (cfg : Config) (fs : FSModel) (fuel : Nat) :
    Except Unit (List String) :=
  cfg.vaultDirectories.foldl
    (fun acc dir =>
      match acc with
      | .error e => .error e
      | .ok rs =>
        match collectGo cfg fs fuel dir dir with
        | .error e => .error e
        | .ok rs2 => .ok (rs ++ rs2))
    (.ok [])

/- ===== Note operations (lines 338-388) ===== -/

/- The filesystem actions a successful `write_note` performs, in order: the
validated target, the directory handed to `ensureDirectory` (lines 351-353,
only when `createDirectories` was requested), and the content written. -/
structure WriteResult where
  validPath : String
  ensuredDir : Option String
  written : String
deriving DecidableEq, Repr

/- Lines 338-359: the `write_note` handler.  The `.md` extension is required
first; the candidate is joined onto `vaultDirectories[0]` and validated; only
then, when requested, is the parent of the validated path ensured, and the
content written. -/
def writeNote (cfg : Config) (fs : FSModel) (notePath content : String)
    (createDirectories : Bool) : Except String WriteResult :=
  if strEndsWith notePath ".md" then
    match validatePath cfg fs (joinPath (cfg.vaultDirectories.headD "") notePath) with
    | .error e => .error e
    | .ok validPath =>
      .ok ⟨validPath,
           if createDirectories then some (dirname validPath) else none,
           content⟩
  else .error "Note path must end with .md extension"

/- Line 211: the three update modes. -/
inductive UpdateMode where
  | replace
  | append
  | prepend
deriving DecidableEq, Repr

/- Lines 361-388: the `update_note` handler.  On success the result is the
validated path written together with the final content; `append`/`prepend`
read the existing content first and fail when that read throws. -/
def updateNote (cfg : Config) (fs : FSModel) (notePath content : String)
    (mode : UpdateMode) : Except String (String × String) :=
  if strEndsWith notePath ".md" then
    match validatePath cfg fs (joinPath (cfg.vaultDirectories.headD "") notePath) with
    | .error e => .error e
    | .ok validPath =>
      match mode with
      | .replace => .ok (validPath, content)
      | .append =>
        match fs.readFile validPath with
        | none => .error ("ENOENT: no such file or directory " ++ validPath)
        | some existingContent => .ok (validPath, existingContent ++ "\n" ++ content)
      | .prepend =>
        match fs.readFile validPath with
        | none => .error ("ENOENT: no such file or directory " ++ validPath)
        | some existingContent => .ok (validPath, content ++ "\n" ++ existingContent)
  else .error "Note path must end with .md extension"

/- ===== Spec-side predicate for claim statements ===== -/

/-- Modelled from the spec: a path lies under a configured root when it equals
the root or extends it at a path-separator boundary (the Root Set membership
the spec's confinement property is about). -/
def specUnderRoot (root p : String) : Bool :=
  p = root || strStartsWith p (root ++ "/")

/- ===== Concrete fixtures ===== -/

/- A server started on vault "/vault" (already a normalized absolute path),
with working directory "/" and home "/home/u". -/
def cfgVault : Config :=
  { vaultDirectories := mkVaultDirectories "/home/u" "/" "/vault"
    cwd := "/"
    homedir := "/home/u" }

/- A regex model for queries that are not valid regular expressions (the
line-170 catch leaves the substring result untouched). -/
def rxFalse : String → String → Bool := fun _ _ => false

/- Vault containing one symlink "/vault/link.md" whose target resolves to
"/outside/secret.md". -/
def fsSymlinkEscape : FSModel :=
  { realpath := fun p =>
      if p = "/vault/link.md" then some "/outside/secret.md"
      else if p = "/vault" then some "/vault"
      else none
    readdir := fun _ => none
    readFile := fun _ => none }

/- A sibling directory "/vaultX" (outside the vault "/vault") holding an
existing regular file. -/
def fsSibling : FSModel :=
  { realpath := fun p => if p = "/vaultX/note.md" then some p else none
    readdir := fun _ => none
    readFile := fun _ => none }

/- "/vault/sub" exists but its real (symlink-resolved) location is
"/outside/real"; the target "/vault/sub/new.md" does not exist. -/
def fsParentOutside : FSModel :=
  { realpath := fun p => if p = "/vault/sub" then some "/outside/real" else none
    readdir := fun _ => none
    readFile := fun _ => none }

/- Only the vault root itself exists; "/vault/new" does not. -/
def fsNoSubdir : FSModel :=
  { realpath := fun p => if p = "/vault" then some "/vault" else none
    readdir := fun _ => none
    readFile := fun _ => none }

/- A hidden entry that exists and resolves to itself, inside the vault. -/
def fsHiddenInside : FSModel :=
  { realpath := fun p =>
      if p = "/vault/.obsidian/app.json" || p = "/vault" then some p else none
    readdir := fun _ => none
    readFile := fun _ => none }

/- A second, everywhere-different filesystem, used to show results that must
not depend on the filesystem at all. -/
def fsAlt : FSModel :=
  { realpath := fun _ => some "/vault/x"
    readdir := fun _ => some []
    readFile := fun _ => some "y" }

/- A vault with a single existing note "/vault/note.md" containing "line1". -/
def fsNote : FSModel :=
  { realpath := fun p =>
      if p = "/vault/note.md" || p = "/vault" then some p else none
    readdir := fun _ => none
    readFile := fun p => if p = "/vault/note.md" then some "line1" else none }

/- The spec's example tree: a/ok.md, .hidden/secret.md, b/ok2.md. -/
def fsVaultTree : FSModel :=
  { realpath := fun p =>
      if p = "/vault" || p = "/vault/a" || p = "/vault/a/ok.md"
          || p = "/vault/b" || p = "/vault/b/ok2.md" then some p
      else none
    readdir := fun p =>
      if p = "/vault" then some [⟨"a", true⟩, ⟨".hidden", true⟩, ⟨"b", true⟩]
      else if p = "/vault/a" then some [⟨"ok.md", false⟩]
      else if p = "/vault/b" then some [⟨"ok2.md", false⟩]
      else if p = "/vault/.hidden" then some [⟨"secret.md", false⟩]
      else none
    readFile := fun _ => none }

/- A vault with exactly one note. -/
def fsOneNote : FSModel :=
  { realpath := fun p => if p = "/vault" || p = "/vault/a.md" then some p else none
    readdir := fun p => if p = "/vault" then some [⟨"a.md", false⟩] else none
    readFile := fun _ => none }

/- A server started on the mixed-case vault path "/Vault", on a filesystem
where only "/Vault" (not "/vault") exists and is listable. -/
def cfgUpper : Config :=
  { vaultDirectories := mkVaultDirectories "/home/u" "/" "/Vault"
    cwd := "/"
    homedir := "/home/u" }

def fsCaseUpper : FSModel :=
  { realpath := fun p => if p = "/Vault" || p = "/Vault/ok.md" then some p else none
    readdir := fun p => if p = "/Vault" then some [⟨"ok.md", false⟩] else none
    readFile := fun _ => none }

/- Identical to `fsCaseUpper` except that the case-folded "/vault" now also
exists (as an empty directory). -/
def fsCaseLower : FSModel :=
  { realpath := fsCaseUpper.realpath
    readdir := fun p => if p = "/vault" then some [] else fsCaseUpper.readdir p
    readFile := fun _ => none }

example : normalizeStr "/vault/link.md" = "/vault/link.md" := by decide
example : dirname "/vault/link.md" = "/vault" := by decide
example : dirname "/vault" = "/" := by decide
example : joinPath "/vault" "new/note.md" = "/vault/new/note.md" := by decide
example : hiddenDenied "/vault/.obsidian/app.json" = true := by decide
example : normalizePath "/VaultX/A.md" = "/vaultx/a.md" := by decide
example : strReplaceFirst "/vault/a/ok.md" "/vault" "" = "/a/ok.md" := by decide
example : expandHome "/home/u" "~/notes" = "/home/u/notes" := by decide
example : cfgVault.vaultDirectories = ["/vault"] := by decide
example : cfgUpper.vaultDirectories = ["/vault"] := by decide

/- ===== Claim theorems ===== -/

/-- Claim C1 (code_bug): a candidate that exists, passes the pre-resolution
prefix check, but whose real path lies outside every root, is NOT denied with
the symlink-escape reason: the line-112 throw is swallowed by the line-117
catch, the parent fallback resolves "/vault" inside the vault, and
`validatePath` returns the symlink path as allowed. -/
theorem validate_allows_symlink_escape :
    validatePath cfgVault fsSymlinkEscape "/vault/link.md" = .ok "/vault/link.md"
    ∧ fsSymlinkEscape.realpath "/vault/link.md" = some "/outside/secret.md"
    ∧ prefixAllowed cfgVault (normalizePath "/outside/secret.md") = false :=
  ⟨rfl, rfl, by decide⟩

/-- Claim C2 (confirmed): the candidate "/vaultX/note.md" lies under no
configured root (the only root is "/vault", and the candidate merely extends
its string without a separator boundary), it exists and resolves to itself,
yet `validatePath` allows it, because both prefix checks are plain
`startsWith` on the normalized forms. -/
theorem validate_boundary_bypass :
    validatePath cfgVault fsSibling "/vaultX/note.md" = .ok "/vaultX/note.md"
    ∧ cfgVault.vaultDirectories = ["/vault"]
    ∧ specUnderRoot "/vault" "/vaultX/note.md" = false
    ∧ specUnderRoot "/vault" (normalizePath "/vaultX/note.md") = false :=
  ⟨rfl, by decide, by decide, by decide⟩

/-- Claim C3 (code_bug): when the target does not exist and the parent exists
but resolves outside every root, the line-127 parent-outside throw is
swallowed by the line-132 catch, so `validatePath` denies with the
"Parent directory does not exist" (ParentMissing) message even though the
parent does exist — the distinct ParentOutsideVault reason never surfaces. -/
theorem parent_outside_reported_as_missing :
    validatePath cfgVault fsParentOutside "/vault/sub/new.md"
      = .error (parentMissingMsg "/vault/sub")
    ∧ fsParentOutside.realpath "/vault/sub" = some "/outside/real"
    ∧ prefixAllowed cfgVault (normalizePath "/outside/real") = false
    ∧ parentMissingMsg "/vault/sub" ≠ parentOutsideMsg :=
  ⟨rfl, rfl, by decide, by decide⟩

/-- Claim C4 (code_bug): a `write_note` call with `createDirectories = true`
on a `.md` path whose parent directory does not yet exist fails inside
`validatePath` (realpath fails on target and parent alike, so the parent
fallback throws ParentMissing) before `ensureDirectory` is ever reached —
no directory is created and nothing is written. -/
theorem write_note_missing_parent_fails :
    writeNote cfgVault fsNoSubdir "new/note.md" "hello" true
      = .error (parentMissingMsg "/vault/new")
    ∧ fsNoSubdir.realpath "/vault/new" = none
    ∧ fsNoSubdir.realpath "/vault/new/note.md" = none :=
  ⟨rfl, rfl, rfl⟩

/-- Claim C6 (confirmed): a candidate containing a segment that begins with
"." is denied with the hidden-entry reason, for EVERY configuration and EVERY
filesystem — the check is the first thing `validatePath` does, before home
expansion, absolutization, the prefix check, or any filesystem resolution. -/
theorem validate_hidden_checked_first (cfg : Config) (fs : FSModel)
    (requestedPath : String) (h : hiddenDenied requestedPath = true) :
    validatePath cfg fs requestedPath = .error hiddenMsg := by
  simp [validatePath, h]

/-- Witness for C6: "/vault/.obsidian/app.json" has the dot-segment
".obsidian", exists, and resolves to itself inside the vault, yet is denied
with the hidden-entry reason. -/
theorem validate_hidden_checked_first_witness :
    hiddenDenied "/vault/.obsidian/app.json" = true
    ∧ fsHiddenInside.realpath "/vault/.obsidian/app.json"
        = some "/vault/.obsidian/app.json"
    ∧ validatePath cfgVault fsHiddenInside "/vault/.obsidian/app.json"
        = .error hiddenMsg :=
  ⟨by decide, rfl,
   validate_hidden_checked_first cfgVault fsHiddenInside _ (by decide)⟩

/-- Counterexample to claim C7 as stated: "/outside/.x" has no configured
root as prefix of its normalized absolute form, but `validatePath` denies it
with the hidden-entry reason, not the outside-vault reason, because the
dot-segment check runs first. -/
theorem outside_hidden_reason_cex :
    prefixAllowed cfgVault (normalizePath (absoluteOf cfgVault "/outside/.x")) = false
    ∧ validatePath cfgVault fsNoSubdir "/outside/.x" = .error hiddenMsg
    ∧ hiddenMsg ≠ outsideMsg (absoluteOf cfgVault "/outside/.x") cfgVault.vaultDirectories :=
  ⟨by decide, rfl, by decide⟩

/-- Claim C7 (corrected): a candidate with no dot-segment whose normalized
absolute form has no configured root as a prefix is denied with the
outside-vault reason, and the result is the same for every filesystem — no
filesystem resolution takes place. -/
theorem validate_outside_denies_without_fs (cfg : Config) (fs fs2 : FSModel)
    (requestedPath : String)
    (hh : hiddenDenied requestedPath = false)
    (hp : prefixAllowed cfg (normalizePath (absoluteOf cfg requestedPath)) = false) :
    validatePath cfg fs requestedPath
      = .error (outsideMsg (absoluteOf cfg requestedPath) cfg.vaultDirectories)
    ∧ validatePath cfg fs requestedPath = validatePath cfg fs2 requestedPath := by
  constructor <;> simp [validatePath, hh, hp]

/-- Witness for C7's corrected statement, at the candidate
"/elsewhere/notes.md" and two filesystems that disagree everywhere. -/
theorem validate_outside_denies_without_fs_witness :
    hiddenDenied "/elsewhere/notes.md" = false
    ∧ prefixAllowed cfgVault (normalizePath (absoluteOf cfgVault "/elsewhere/notes.md")) = false
    ∧ validatePath cfgVault fsNoSubdir "/elsewhere/notes.md"
        = .error (outsideMsg "/elsewhere/notes.md" ["/vault"])
    ∧ validatePath cfgVault fsNoSubdir "/elsewhere/notes.md"
        = validatePath cfgVault fsAlt "/elsewhere/notes.md" := by
  have h := validate_outside_denies_without_fs cfgVault fsNoSubdir fsAlt
    "/elsewhere/notes.md" (by decide) (by decide)
  exact ⟨by decide, by decide, h.1.trans (by rfl), h.2⟩

/-- Claim C8 (confirmed): `update_note` on a validated existing `.md` file
with prior content `existing`: replace writes the new content verbatim,
append writes `existing ++ "\n" ++ content`, prepend writes
`content ++ "\n" ++ existing`. -/
theorem update_note_modes (cfg : Config) (fs : FSModel)
    (notePath content existing validPath : String)
    (hext : strEndsWith notePath ".md" = true)
    (hval : validatePath cfg fs (joinPath (cfg.vaultDirectories.headD "") notePath)
              = .ok validPath)
    (hread : fs.readFile validPath = some existing) :
    updateNote cfg fs notePath content .replace = .ok (validPath, content)
    ∧ updateNote cfg fs notePath content .append
        = .ok (validPath, existing ++ "\n" ++ content)
    ∧ updateNote cfg fs notePath content .prepend
        = .ok (validPath, content ++ "\n" ++ existing) := by
  refine ⟨?_, ?_, ?_⟩ <;> simp only [updateNote, hext, if_true, hval, hread]

/-- Witness for C8: the spec's own example — a note containing "line1",
updated with "line2" in each mode. -/
theorem update_note_modes_witness :
    strEndsWith "note.md" ".md" = true
    ∧ fsNote.readFile "/vault/note.md" = some "line1"
    ∧ updateNote cfgVault fsNote "note.md" "line2" .replace
        = .ok ("/vault/note.md", "line2")
    ∧ updateNote cfgVault fsNote "note.md" "line2" .append
        = .ok ("/vault/note.md", "line1\nline2")
    ∧ updateNote cfgVault fsNote "note.md" "line2" .prepend
        = .ok ("/vault/note.md", "line2\nline1") := by
  have h := update_note_modes cfgVault fsNote "note.md" "line2" "line1"
    "/vault/note.md" (by decide) (by rfl) (by rfl)
  exact ⟨by decide, rfl, h.1, h.2.1.trans (by rfl), h.2.2.trans (by rfl)⟩

/- ===== Search-engine lemmas ===== -/

theorem listIncludes_nil (l : List Char) : listIncludes [] l = true := by
  cases l <;> simp [listIncludes, List.isPrefixOf]

theorem strIncludes_empty_query (s : String) :
    strIncludes s (strToLower "") = true :=
  listIncludes_nil s.data

theorem foldl_congr_fun {α β : Type} (l : List α) (f g : β → α → β) (b : β)
    (h : ∀ x a, f x a = g x a) : l.foldl f b = l.foldl g b := by
  induction l generalizing b with
  | nil => rfl
  | cons a as ih =>
    simp only [List.foldl_cons]
    rw [h]
    exact ih _

theorem searchStep_denied (cfg : Config) (fs : FSModel)
    (rx : String → String → Bool) (query : String)
    (rec : String → Except Unit (List String)) (basePath currentPath : String)
    (acc : List String) (e : DirEntry) (msg : String)
    (hv : validatePath cfg fs (joinPath currentPath e.name) = .error msg) :
    searchStep cfg fs rx query rec basePath currentPath acc e = acc := by
  simp only [searchStep, hv]

theorem searchStep_matching (cfg : Config) (fs : FSModel)
    (rx : String → String → Bool) (query : String)
    (hq : ∀ name, strIncludes (strToLower name) (strToLower query) = true)
    (recS recC : String → Except Unit (List String))
    (hrec : ∀ fp, recS fp = recC fp)
    (basePath currentPath : String) (acc : List String) (e : DirEntry) :
    searchStep cfg fs rx query recS basePath currentPath acc e
      = collectStep cfg fs recC basePath currentPath acc e := by
  cases hval : validatePath cfg fs (joinPath currentPath e.name) with
  | error m => simp only [searchStep, collectStep, hval]
  | ok v =>
    have hm : entryMatches rx query e.name = true := by
      simp [entryMatches, hq]
    simp only [searchStep, collectStep, hval, hm, Bool.and_true, hrec]

theorem searchGo_matching (cfg : Config) (fs : FSModel)
    (rx : String → String → Bool) (query : String)
    (hq : ∀ name, strIncludes (strToLower name) (strToLower query) = true) :
    ∀ (fuel : Nat) (basePath currentPath : String),
    searchGo cfg fs rx query fuel basePath currentPath
      = collectGo cfg fs fuel basePath currentPath := by
  intro fuel
  induction fuel with
  | zero => intro b c; rfl
  | succ n ih =>
    intro b c
    simp only [searchGo, collectGo]
    cases hd : fs.readdir c with
    | none => rfl
    | some entries =>
      exact congrArg Except.ok (foldl_congr_fun entries _ _ []
        (fun acc e => searchStep_matching cfg fs rx query hq _ _
          (fun fp => ih b fp) b c acc e))

theorem searchNotesRun_matching (cfg : Config) (fs : FSModel)
    (rx : String → String → Bool) (fuel : Nat) (query : String)
    (hq : ∀ name, strIncludes (strToLower name) (strToLower query) = true) :
    searchNotesRun cfg fs rx fuel query = collectRun cfg fs fuel := by
  unfold searchNotesRun collectRun
  refine foldl_congr_fun cfg.vaultDirectories _ _ (Except.ok []) ?_
  intro acc dir
  cases acc with
  | error e => rfl
  | ok rs => rw [searchGo_matching cfg fs rx query hq fuel dir dir]

/- ===== Remaining claim theorems ===== -/

/-- Counterexample to claim C5 as stated: the stored root is the case-folded
"/vault" although the configured vault is "/Vault", and the search's directory
listing operates on that normalized form — on a filesystem where only "/Vault"
is listable the whole search rejects, and making the case-folded "/vault"
listable (all else equal) changes the outcome, so the normalized form is
passed to a filesystem access. -/
theorem normalized_root_reaches_fs_cex :
    cfgUpper.vaultDirectories = ["/vault"]
    ∧ fsCaseUpper.readdir "/Vault" = some [⟨"ok.md", false⟩]
    ∧ searchNotesRun cfgUpper fsCaseUpper rxFalse 1 "" = .error ()
    ∧ searchNotesRun cfgUpper fsCaseLower rxFalse 1 "" = .ok [] :=
  ⟨by decide, rfl, rfl, rfl⟩

/-- Claim C5 (corrected): the search traversal starts by listing the stored,
normalized root itself: whenever the single stored root is not listable, the
whole search call rejects — the normalized form is what reaches `fs.readdir`. -/
theorem search_lists_stored_root (cfg : Config) (fs : FSModel)
    (rx : String → String → Bool) (fuel : Nat) (query d : String)
    (hroots : cfg.vaultDirectories = [d]) (hread : fs.readdir d = none) :
    searchNotesRun cfg fs rx (fuel + 1) query = .error () := by
  simp only [searchNotesRun, hroots, List.foldl_cons, List.foldl_nil,
    searchGo, hread]

/-- Witness for C5's corrected statement: the server configured on "/Vault"
stores "/vault" and its search rejects when "/vault" is not listable. -/
theorem search_lists_stored_root_witness :
    cfgUpper.vaultDirectories = ["/vault"]
    ∧ fsCaseUpper.readdir "/vault" = none
    ∧ searchNotesRun cfgUpper fsCaseUpper rxFalse 1 "" = .error () :=
  ⟨by decide, rfl,
   search_lists_stored_root cfgUpper fsCaseUpper rxFalse 0 "" "/vault"
     (by decide) rfl⟩

/-- Claim C9 (confirmed): for a query that matches every filename (the empty
query in particular, since every name contains the empty substring), the
handler returns exactly the first 200 of the accumulated `.md` results
(`collectRun`, the traversal with the query filter dropped), and reports the
omitted count `total - 200` exactly when the total exceeds 200. -/
theorem search_matching_query_truncation (cfg : Config) (fs : FSModel)
    (rx : String → String → Bool) (fuel : Nat) (query : String)
    (hq : ∀ name, strIncludes (strToLower name) (strToLower query) = true) :
    searchTool cfg fs rx fuel query
      = match collectRun cfg fs fuel with
        | .error e => .error e
        | .ok results =>
          .ok (results.take SEARCH_LIMIT,
            if results.length > SEARCH_LIMIT then some (results.length - SEARCH_LIMIT)
            else none) := by
  unfold searchTool
  rw [searchNotesRun_matching cfg fs rx fuel query hq]

/-- Witness for C9: the empty query on a one-note vault returns that note,
untruncated, with no omitted-count reported. -/
theorem search_matching_query_truncation_witness :
    searchTool cfgVault fsOneNote rxFalse 2 "" = .ok (["/a.md"], none) := by
  have h := search_matching_query_truncation cfgVault fsOneNote rxFalse 2 ""
    (fun name => strIncludes_empty_query (strToLower name))
  exact h.trans (by rfl)

/-- Claim C10 (confirmed): a directory entry denied by `validatePath` is
skipped together with its entire subtree, the surrounding traversal neither
fails nor loses sibling results — the directory's outcome is exactly the
successful fold over the remaining entries. -/
theorem search_skips_denied_entry (cfg : Config) (fs : FSModel)
    (rx : String → String → Bool) (query : String) (fuel : Nat)
    (basePath currentPath : String) (xs ys : List DirEntry) (e : DirEntry)
    (msg : String)
    (hdir : fs.readdir currentPath = some (xs ++ e :: ys))
    (hv : validatePath cfg fs (joinPath currentPath e.name) = .error msg) :
    searchGo cfg fs rx query (fuel + 1) basePath currentPath
      = .ok ((xs ++ ys).foldl
          (searchStep cfg fs rx query
            (fun fp => searchGo cfg fs rx query fuel basePath fp)
            basePath currentPath)
          []) := by
  simp only [searchGo, hdir]
  congr 1
  rw [List.foldl_append, List.foldl_append, List.foldl_cons,
    searchStep_denied cfg fs rx query _ basePath currentPath _ e msg hv]

/-- Witness for C10: the spec's example vault (a/ok.md, .hidden/secret.md,
b/ok2.md) — ".hidden" is denied and omitted entirely, the siblings' matches
are both returned, and the search succeeds. -/
theorem search_skips_denied_entry_witness :
    fsVaultTree.readdir "/vault"
      = some ([⟨"a", true⟩] ++ ⟨".hidden", true⟩ :: [⟨"b", true⟩])
    ∧ validatePath cfgVault fsVaultTree (joinPath "/vault" ".hidden")
        = .error hiddenMsg
    ∧ searchGo cfgVault fsVaultTree rxFalse "ok" 3 "/vault" "/vault"
        = .ok ["/a/ok.md", "/b/ok2.md"] := by
  have h := search_skips_denied_entry cfgVault fsVaultTree rxFalse "ok" 2
    "/vault" "/vault" [⟨"a", true⟩] [⟨"b", true⟩] ⟨".hidden", true⟩
    hiddenMsg rfl (by rfl)
  exact ⟨rfl, by rfl, h.trans (by rfl)⟩
